import Mathlib

/-!
# Verification of the quicksql dynamic record model and CRUD statement synthesizer

Shallow embedding of the Go library `quicksql` (package `quicksql`, file
`quicksql.go`): a schema-less data-access layer built from a `Record` (an
association of field names to nullable canonical byte values plus captured
table / primary-key metadata), a small option-configuration layer, and a
`Session` that synthesizes parameterized SELECT/INSERT/UPDATE/DELETE
statements.

Modelling decisions, each tied to the Go source:

* A Go `[]byte` cell (`Record.values : map[string][]byte`) is modelled as
  `Option String`: `none` is the nil slice (SQL null), `some s` a byte
  sequence identified with its content.  Go's `[]uint8(string)` and
  `string([]uint8)` conversions are byte-wise inverses, so text content is
  preserved exactly and a Lean `String` is a faithful stand-in for the byte
  sequence wherever the program only converts between the two.
* The Go map is modelled as an association list with update-in-place
  semantics (`assocSet`); map iteration order is represented by the list
  order.
* The external executor (`SqlInterface`) is a parameter: `ExecDb` answers
  `Exec` calls (error or success with an optional `LastInsertId`), and the
  query side of `Select` is a parameter returning column names and rows.
  Each mutating operation returns, besides its result, the list of exec
  calls it performed and the (possibly updated) record, making side effects
  on the executor and on the passed record explicit.
* `strconv.ParseInt`/`ParseUint` (Go standard library) are modelled from
  their documented semantics: base-10 digits with optional sign, error on
  syntax or on overflow of the requested width.  `fmt.Sprintf("%v", n)` on
  an integer is `strconv.FormatInt`: decimal digits with a leading `-` for
  negative values, modelled by repeated division (`natDigitsRev`).
-/

namespace Quicksql

/-- The package-level error values of `quicksql` (`ErrNullValue`,
`ErrInvalidColumn`, ...), plus propagated failures: `backend` carries an
executor error message, `numError` a `strconv` parse failure on the given
input text. -/
inductive QErr where
  | nullValue
  | invalidColumn
  | unsupportedValue
  | primaryKeyNotSet
  | primaryKeyInvalid
  | tableNotSet
  | backend (msg : String)
  | numError (input : String)
deriving DecidableEq, Repr

deriving instance DecidableEq for Except

/-- A single column cell: `none` models a nil `[]byte` (SQL null), `some s`
a byte sequence with content `s`. -/
abbrev Cell := Option String

/-- A value handed to `Record.Set` through Go's `interface{}` argument:
the cases of the type switch in `Record.Set` that the claims exercise
(`string`, `[]byte`, `nil`, and the `default` branch for an `int64`). -/
inductive GoValue where
  | str (s : String)
  | bytes (b : Cell)
  | null
  | int (n : Int)
deriving DecidableEq, Repr

/-- Digit character for `k < 10`, as produced by `strconv` formatting. -/
def digitChar (k : Nat) : Char := Char.ofNat (48 + k)

/-- Little-endian decimal digit characters of `n` by repeated division,
the loop of `strconv.FormatUint`.  The fuel argument makes the recursion
structural; any fuel above `n` yields the digits of `n`. -/
def natDigitsRevFuel : Nat → Nat → List Char
  | 0, _ => []
  | fuel + 1, n =>
    if n < 10 then [digitChar n]
    else digitChar (n % 10) :: natDigitsRevFuel fuel (n / 10)

/-- Little-endian decimal digit characters of `n`. -/
def natDigitsRev (n : Nat) : List Char := natDigitsRevFuel (n + 1) n

/-- Decimal rendering of a natural number. -/
def goFormatNat (n : Nat) : String := String.mk (natDigitsRev n).reverse

/-- `fmt.Sprintf("%v", n)` for an `int64` `n`, i.e. `strconv.FormatInt`:
decimal digits with a leading minus sign for negative values. -/
def goFormatInt (n : Int) : String :=
  if n < 0 then String.mk ('-' :: (natDigitsRev (-n).toNat).reverse)
  else goFormatNat n.toNat

/-- The canonical cell stored by `Record.Set` for each `interface{}` case:
a `string` is stored as its bytes, a `[]byte` as-is, `nil` as the nil
slice, and any other value (here: `int64`) as the bytes of its
`fmt.Sprintf("%v", value)` rendering. -/
def GoValue.toCell : GoValue → Cell
  | .str s => some s
  | .bytes b => b
  | .null => none
  | .int n => some (goFormatInt n)

/-- Lookup in an association list, modelling `v, ok := m[name]` on the Go
map: `none` means the key is absent. -/
def assocGet (vs : List (String × Cell)) (n : String) : Option Cell :=
  match vs with
  | [] => none
  | (k, v) :: rest => if k = n then some v else assocGet rest n

/-- Update in an association list, modelling `m[name] = value` on the Go
map: overwrites an existing binding in place, otherwise appends. -/
def assocSet (vs : List (String × Cell)) (n : String) (c : Cell) :
    List (String × Cell) :=
  match vs with
  | [] => [(n, c)]
  | (k, v) :: rest => if k = n then (k, c) :: rest else (k, v) :: assocSet rest n c

/-- The `Record` struct: field values, declared primary key, table name and
auto-increment flag. -/
structure Record where
  values : List (String × Cell)
  pk : List String
  tableName : String
  autoIncrement : Bool
deriving DecidableEq, Repr

/-- `Record.Fields`: the names of the fields currently present. -/
def Record.fields (r : Record) : List String := r.values.map Prod.fst

/-- `Record.Set`: stores the canonical cell for `value` under `name`.
The Go method also returns an (always nil) error, elided here. -/
def Record.set (r : Record) (name : String) (value : GoValue) : Record :=
  { r with values := assocSet r.values name value.toCell }

/-- `Record.String`: `ErrInvalidColumn` if the field is absent,
`ErrNullValue` if its cell is null, otherwise the cell bytes as text. -/
def Record.string (r : Record) (name : String) : Except QErr String :=
  match assocGet r.values name with
  | none => .error .invalidColumn
  | some none => .error .nullValue
  | some (some s) => .ok s

/-- All characters are decimal digits and the text is non-empty: the
success condition of `strconv.ParseUint(s, 10, _)` before the range
check. -/
def isDigits (l : List Char) : Bool := !l.isEmpty && l.all (·.isDigit)

/-- Numeric value of a big-endian digit-character list. -/
def digitsVal (l : List Char) : Nat := l.foldl (fun a c => a * 10 + (c.toNat - 48)) 0

/-- Model of `strconv.ParseInt(s, 10, 64)` from its documented semantics:
an optional leading sign followed by decimal digits, `none` on a syntax
error or when the value overflows a signed 64-bit integer. -/
def goParseInt64 (s : String) : Option Int :=
  match s.data with
  | [] => none
  | c :: rest =>
    let (neg, digits) :=
      if c = '-' then (true, rest)
      else if c = '+' then (false, rest)
      else (false, c :: rest)
    if isDigits digits then
      let v := digitsVal digits
      if neg then
        if v ≤ 2 ^ 63 then some (-(v : Int)) else none
      else
        if v < 2 ^ 63 then some (v : Int) else none
    else none

/-- `Record.Int64`: field-presence and null checks as in `Record.String`,
then `strconv.ParseInt(string(v), 10, 64)`, propagating its failure. -/
def Record.int64 (r : Record) (name : String) : Except QErr Int :=
  match assocGet r.values name with
  | none => .error .invalidColumn
  | some none => .error .nullValue
  | some (some s) =>
    match goParseInt64 s with
    | none => .error (.numError s)
    | some n => .ok n

/-- The per-call `sessionContext`: bound arguments, declared primary key,
table name, auto-increment flag. -/
structure SessionCtx where
  args : List GoValue
  pk : List String
  tableName : String
  autoIncrement : Bool
deriving Repr

/-- The four concrete `SessionOption` values of the package
(`PrimaryKeyOption`, `AutoIncrementOption`, `ArgsOption`, `TableOption`);
none of them can fail. -/
inductive SessionOption where
  | primaryKey (pk : List String)
  | autoIncrementOpt
  | argsOpt (args : List GoValue)
  | table (name : String)
deriving Repr

/-- Applying one option to the mutable context: each option overwrites a
single context field (last-write-wins). -/
def applyOption (ctx : SessionCtx) : SessionOption → SessionCtx
  | .primaryKey pk => { ctx with pk := pk }
  | .autoIncrementOpt => { ctx with autoIncrement := true }
  | .argsOpt args => { ctx with args := args }
  | .table name => { ctx with tableName := name }

/-- The context a `Session` call starts from (`args` and `pk` empty, table
name empty, auto-increment false) after applying the options in order. -/
def buildCtx (options : List SessionOption) : SessionCtx :=
  options.foldl applyOption ⟨[], [], "", false⟩

/-- `NewRecord`: builds a fresh record with no values, carrying the
metadata collected from the options. -/
def NewRecord (options : List SessionOption) : Record :=
  let ctx := buildCtx options
  { values := [], pk := ctx.pk, tableName := ctx.tableName,
    autoIncrement := ctx.autoIncrement }

/-- One `Exec` call observed at the executor: statement text and the
positional arguments (record cells) passed with it. -/
structure ExecCall where
  stmt : String
  args : List Cell
deriving DecidableEq, Repr

/-- The executor's answer to one `Exec` call: an error message, or success
together with `LastInsertId` (`none` when the executor cannot report
one, i.e. `Result.LastInsertId` returns an error). -/
structure ExecResult where
  execErr : Option String
  lastInsertId : Option Int
deriving DecidableEq, Repr

/-- The `Exec` half of the `SqlInterface` capability. -/
def ExecDb := String → List Cell → ExecResult

/-- The `Query` half of the `SqlInterface` capability: statement and bound
arguments to an error or to (column names, rows of raw values). -/
def QueryDb := String → List GoValue → Except String (List String × List (List GoValue))

/-- `validateRecordForUpdateOrDelete`: table name checked first
(`ErrTableNotSet`), then non-emptiness of the primary key
(`ErrPrimaryKeyNotSet`). -/
def validateRecordForUpdateOrDelete (r : Record) : Option QErr :=
  if r.tableName = "" then some .tableNotSet
  else if r.pk = [] then some .primaryKeyNotSet
  else none

/-- The primary-key value collection loop shared by `Save` and `Delete`:
for each declared primary-key field in order, look up its cell and fail
with `ErrPrimaryKeyInvalid` at the first absent field. -/
def collectPkValues (values : List (String × Cell)) : List String → Except QErr (List Cell)
  | [] => .ok []
  | f :: rest =>
    match assocGet values f with
    | none => .error .primaryKeyInvalid
    | some v =>
      match collectPkValues values rest with
      | .error e => .error e
      | .ok vs => .ok (v :: vs)

/-- The UPDATE statement text built by `Session.Save`. -/
def updateQuery (r : Record) : String :=
  "UPDATE " ++ r.tableName ++ " SET "
    ++ String.intercalate ", " (r.values.map (fun p => "`" ++ p.1 ++ "` = ?"))
    ++ " WHERE "
    ++ String.intercalate " AND " (r.pk.map (fun f => "`" ++ f ++ "` = ?"))
    ++ " LIMIT 1"

/-- The DELETE statement text built by `Session.Delete`. -/
def deleteQuery (r : Record) : String :=
  "DELETE FROM " ++ r.tableName ++ " WHERE "
    ++ String.intercalate " AND " (r.pk.map (fun f => "`" ++ f ++ "` = ?"))
    ++ " LIMIT 1"

/-- The INSERT statement text built by `Session.Create`: one back-quoted
column and one `?` placeholder per field currently on the record. -/
def insertQuery (r : Record) : String :=
  "INSERT INTO " ++ r.tableName ++ " ("
    ++ String.intercalate ", " (r.values.map (fun p => "`" ++ p.1 ++ "`"))
    ++ ") VALUES("
    ++ String.intercalate ", " (r.values.map (fun _ => "?"))
    ++ ")"

/-- `Session.Save`: validate, collect primary-key values (before any
statement executes), then one `Exec` of the UPDATE statement with the SET
arguments followed by the WHERE arguments.  Returns the call result, the
exec calls performed, and the record (never written to by `Save`). -/
def Session.save (db : ExecDb) (r : Record) :
    Except QErr Unit × List ExecCall × Record :=
  match validateRecordForUpdateOrDelete r with
  | some e => (.error e, [], r)
  | none =>
    match collectPkValues r.values r.pk with
    | .error e => (.error e, [], r)
    | .ok pkVals =>
      let query := updateQuery r
      let args := r.values.map Prod.snd ++ pkVals
      let res := db query args
      (match res.execErr with
       | some m => .error (.backend m)
       | none => .ok (), [⟨query, args⟩], r)

/-- `Session.Delete`: validate, collect primary-key values, then one
`Exec` of the DELETE statement with the primary-key values as
arguments. -/
def Session.delete (db : ExecDb) (r : Record) :
    Except QErr Unit × List ExecCall × Record :=
  match validateRecordForUpdateOrDelete r with
  | some e => (.error e, [], r)
  | none =>
    match collectPkValues r.values r.pk with
    | .error e => (.error e, [], r)
    | .ok pkVals =>
      let query := deleteQuery r
      let res := db query pkVals
      (match res.execErr with
       | some m => .error (.backend m)
       | none => .ok (), [⟨query, pkVals⟩], r)

/-- `Session.Create`: `ErrTableNotSet` on an empty table name, otherwise
one `Exec` of the INSERT statement with the field values as arguments.
On success, when the declared primary key is a single field and the
auto-increment flag is set, the executor-reported `LastInsertId` is
written back into that field via `Record.Set` (skipped silently when the
executor cannot report one). -/
def Session.create (db : ExecDb) (r : Record) :
    Except QErr Unit × List ExecCall × Record :=
  if r.tableName = "" then (.error .tableNotSet, [], r)
  else
    let query := insertQuery r
    let args := r.values.map Prod.snd
    let res := db query args
    match res.execErr with
    | some m => (.error (.backend m), [⟨query, args⟩], r)
    | none =>
      match r.pk, r.autoIncrement with
      | [p], true =>
        match res.lastInsertId with
        | some id => (.ok (), [⟨query, args⟩], r.set p (.int id))
        | none => (.ok (), [⟨query, args⟩], r)
      | _, _ => (.ok (), [⟨query, args⟩], r)

/-- `Session.Select`: build the context from the options, run the query
with the bound arguments, and wrap each returned row in a fresh record
tagged with the context's table and primary key, setting one field per
returned column. -/
def Session.select (db : QueryDb) (query : String) (options : List SessionOption) :
    Except QErr (List Record) :=
  let ctx := buildCtx options
  match db query ctx.args with
  | .error e => .error (.backend e)
  | .ok (colNames, rows) =>
    .ok (rows.map fun row =>
      (colNames.zip row).foldl (fun rec p => rec.set p.1 p.2)
        (NewRecord [.table ctx.tableName, .primaryKey ctx.pk]))

/-- Applying a sequence of `Record.Set` calls in order. -/
def applySets (r : Record) (sets : List (String × GoValue)) : Record :=
  sets.foldl (fun a p => a.set p.1 p.2) r

/-! ## Association-list lemmas -/

theorem assocGet_assocSet_self (vs : List (String × Cell)) (n : String) (c : Cell) :
    assocGet (assocSet vs n c) n = some c := by
  induction vs with
  | nil => simp [assocSet, assocGet]
  | cons kv rest ih =>
    obtain ⟨k, v⟩ := kv
    by_cases hk : k = n
    · simp [assocSet, assocGet, hk]
    · simp [assocSet, assocGet, hk, ih]

theorem mem_map_fst_assocSet (vs : List (String × Cell)) (n : String) (c : Cell)
    (f : String) :
    f ∈ (assocSet vs n c).map Prod.fst ↔ f = n ∨ f ∈ vs.map Prod.fst := by
  induction vs with
  | nil => simp [assocSet]
  | cons kv rest ih =>
    obtain ⟨k, v⟩ := kv
    by_cases hk : k = n
    · subst hk
      simp [assocSet]
    · simp only [assocSet, if_neg hk, List.map_cons, List.mem_cons, ih]
      tauto

theorem collectPkValues_ok_of_present (vs : List (String × Cell)) (pks : List String)
    (h : ∀ f ∈ pks, assocGet vs f ≠ none) :
    ∃ cells, collectPkValues vs pks = .ok cells := by
  induction pks with
  | nil => exact ⟨[], rfl⟩
  | cons p rest ih =>
    have hp := h p (by simp)
    obtain ⟨v, hv⟩ : ∃ v, assocGet vs p = some v := by
      cases hg : assocGet vs p with
      | none => exact absurd hg hp
      | some v => exact ⟨v, rfl⟩
    obtain ⟨cells, hcells⟩ := ih (fun f hf => h f (by simp [hf]))
    refine ⟨v :: cells, ?_⟩
    simp [collectPkValues, hv, hcells]

theorem collectPkValues_error_of_missing (vs : List (String × Cell)) (pks : List String)
    (h : ∃ f ∈ pks, assocGet vs f = none) :
    collectPkValues vs pks = .error .primaryKeyInvalid := by
  induction pks with
  | nil => simp at h
  | cons p rest ih =>
    obtain ⟨f, hf, hget⟩ := h
    rcases List.mem_cons.mp hf with hfp | hfr
    · subst hfp
      simp [collectPkValues, hget]
    · cases hp : assocGet vs p with
      | none => simp [collectPkValues, hp]
      | some v => simp [collectPkValues, hp, ih ⟨f, hfr, hget⟩]

/-! ## Decimal formatting and parsing lemmas -/

theorem digitChar_toNat {k : Nat} (h : k < 10) : (digitChar k).toNat = 48 + k := by
  interval_cases k <;> decide

theorem digitChar_isDigit {k : Nat} (h : k < 10) : (digitChar k).isDigit = true := by
  interval_cases k <;> decide

theorem isDigit_ne_dash {c : Char} (h : c.isDigit = true) : c ≠ '-' := by
  intro hc
  subst hc
  simp at h

theorem isDigit_ne_plus {c : Char} (h : c.isDigit = true) : c ≠ '+' := by
  intro hc
  subst hc
  simp at h

theorem natDigitsRevFuel_spec (fuel : Nat) :
    ∀ n : Nat, n < fuel →
      natDigitsRevFuel fuel n ≠ [] ∧
      (∀ c ∈ natDigitsRevFuel fuel n, c.isDigit = true) ∧
      (natDigitsRevFuel fuel n).foldr (fun c a => a * 10 + (c.toNat - 48)) 0 = n := by
  induction fuel with
  | zero => intro n h; omega
  | succ fuel ih =>
    intro n h
    by_cases hn : n < 10
    · refine ⟨by simp [natDigitsRevFuel, hn], ?_, ?_⟩
      · intro c hc
        simp [natDigitsRevFuel, hn] at hc
        subst hc
        exact digitChar_isDigit hn
      · simp [natDigitsRevFuel, hn, digitChar_toNat hn]
    · have hdiv : n / 10 < fuel := by
        have := Nat.div_lt_self (show 0 < n by omega) (show 1 < 10 by omega)
        omega
      obtain ⟨hne, hdig, hval⟩ := ih (n / 10) hdiv
      have hmod : n % 10 < 10 := Nat.mod_lt _ (by omega)
      refine ⟨by simp [natDigitsRevFuel, hn], ?_, ?_⟩
      · intro c hc
        simp only [natDigitsRevFuel, if_neg hn, List.mem_cons] at hc
        rcases hc with hc | hc
        · subst hc
          exact digitChar_isDigit hmod
        · exact hdig c hc
      · simp only [natDigitsRevFuel, if_neg hn, List.foldr_cons, hval,
          digitChar_toNat hmod]
        omega

theorem digitsVal_reverse (l : List Char) :
    digitsVal l.reverse = l.foldr (fun c a => a * 10 + (c.toNat - 48)) 0 := by
  simp [digitsVal, List.foldl_reverse]

theorem natDigitsRev_spec (n : Nat) :
    (natDigitsRev n).reverse ≠ [] ∧
    (∀ c ∈ (natDigitsRev n).reverse, c.isDigit = true) ∧
    digitsVal ((natDigitsRev n).reverse) = n := by
  obtain ⟨hne, hdig, hval⟩ := natDigitsRevFuel_spec (n + 1) n (by omega)
  refine ⟨by simpa using hne, ?_, ?_⟩
  · intro c hc
    exact hdig c (List.mem_reverse.mp hc)
  · rw [digitsVal_reverse]
    exact hval

theorem goParseInt64_digits (l : List Char) (hne : l ≠ [])
    (hdig : ∀ c ∈ l, c.isDigit = true) (hval : digitsVal l < 2 ^ 63) :
    goParseInt64 (String.mk l) = some ((digitsVal l : Nat) : Int) := by
  obtain ⟨c, rest, rfl⟩ := List.exists_cons_of_ne_nil hne
  have hc : c.isDigit = true := hdig c (by simp)
  have hdash : c ≠ '-' := isDigit_ne_dash hc
  have hplus : c ≠ '+' := isDigit_ne_plus hc
  have hdigits : isDigits (c :: rest) = true := by
    simp only [isDigits, List.isEmpty_cons, Bool.not_false, Bool.true_and]
    exact List.all_eq_true.mpr hdig
  simp only [goParseInt64, if_neg hdash, if_neg hplus, hdigits, if_true]
  simp
  omega

theorem goParseInt64_neg_digits (l : List Char) (hne : l ≠ [])
    (hdig : ∀ c ∈ l, c.isDigit = true) (hval : digitsVal l ≤ 2 ^ 63) :
    goParseInt64 (String.mk ('-' :: l)) = some (-((digitsVal l : Nat) : Int)) := by
  have hdigits : isDigits l = true := by
    simp only [isDigits, Bool.and_eq_true, Bool.not_eq_true']
    exact ⟨by simpa using hne, List.all_eq_true.mpr hdig⟩
  simp only [goParseInt64, if_pos rfl, hdigits, if_true]
  simp
  omega

theorem goParseInt64_goFormatInt (n : Int) (h1 : -(2 ^ 63) ≤ n) (h2 : n < 2 ^ 63) :
    goParseInt64 (goFormatInt n) = some n := by
  by_cases hn : n < 0
  · obtain ⟨hne, hdig, hval⟩ := natDigitsRev_spec ((-n).toNat)
    rw [goFormatInt, if_pos hn, goParseInt64_neg_digits _ hne hdig (by omega)]
    congr 1
    omega
  · obtain ⟨hne, hdig, hval⟩ := natDigitsRev_spec n.toNat
    rw [goFormatInt, if_neg hn, goFormatNat, goParseInt64_digits _ hne hdig (by omega)]
    congr 1
    omega

/-! ## Concrete executors and records used by witnesses and scenarios -/

/-- Executor answering every exec call with success and no generated id. -/
def dbOk : ExecDb := fun _ _ => ⟨none, none⟩

/-- Executor answering every exec call with success and generated id 7. -/
def dbWithId : ExecDb := fun _ _ => ⟨none, some 7⟩

/-- The record of the delete scenario: table `t`, primary key `["id"]`,
exactly one field `id` set to the integer 5. -/
def rDelete : Record := (NewRecord [.table "t", .primaryKey ["id"]]).set "id" (.int 5)

/-- A record with empty primary key but non-empty table name and one field. -/
def rPkless : Record := ⟨[("a", some "1")], [], "t", false⟩

/-- A record for the create scenario: table `t`, auto-increment single
primary key `["id"]`, one regular field. -/
def rCreate : Record :=
  (NewRecord [.table "t", .primaryKey ["id"], .autoIncrementOpt]).set "name" (.str "x")

/-- A record whose declared composite primary key `["id", "tenant"]` has a
value for `id` but none for `tenant`. -/
def rComposite : Record := ⟨[("id", some "1")], ["id", "tenant"], "t", false⟩

/-- Query executor of the select scenario: two columns `id`, `name` and a
single row `1, "x"`. -/
def dbQW : QueryDb := fun _ _ => .ok (["id", "name"], [[.int 1, .str "x"]])

/-- The record materialized by `Select` in the select scenario. -/
def recW : Record :=
  ((NewRecord [.table "", .primaryKey []]).set "id" (.int 1)).set "name" (.str "x")

/-- Membership in the fields of a record after a fold of `Set` calls:
exactly the set names together with the fields already present. -/
theorem mem_fields_foldl_set (ps : List (String × GoValue)) (r : Record) (f : String) :
    f ∈ (ps.foldl (fun rec p => rec.set p.1 p.2) r).fields ↔
      f ∈ ps.map Prod.fst ∨ f ∈ r.fields := by
  induction ps generalizing r with
  | nil => simp
  | cons p rest ih =>
    simp only [List.foldl_cons, List.map_cons, List.mem_cons]
    rw [ih]
    have hset : f ∈ (r.set p.1 p.2).fields ↔ f = p.1 ∨ f ∈ r.fields :=
      mem_map_fst_assocSet r.values p.1 p.2.toCell f
    rw [hset]
    tauto

/-! ## Claim theorems -/

/-- C1, counterexample: a `Record` with empty primary key AND empty table
name makes `Save` fail with `TableNotSet`, not `PrimaryKeyNotSet`, because
`validateRecordForUpdateOrDelete` checks the table name first.  This
refutes the claim's "regardless of the Record's table name (including an
empty table name)". -/
theorem save_emptyPk_emptyTable_tableNotSet :
    (Session.save dbOk ⟨[("a", some "1")], [], "", false⟩).1
        = Except.error QErr.tableNotSet ∧
    (Session.save dbOk ⟨[("a", some "1")], [], "", false⟩).1
        ≠ Except.error QErr.primaryKeyNotSet := by
  exact ⟨rfl, by decide⟩

/-- C1, amended: for every `Record` whose declared primary key is empty and
whose table name is non-empty, `Save` fails with `PrimaryKeyNotSet`,
regardless of which fields and values are present. -/
theorem save_emptyPk_fails_primaryKeyNotSet (db : ExecDb) (r : Record)
    (hpk : r.pk = []) (htable : r.tableName ≠ "") :
    (Session.save db r).1 = Except.error QErr.primaryKeyNotSet := by
  simp [Session.save, validateRecordForUpdateOrDelete, hpk, htable]

/-- C1, witness: the amended theorem applied to a concrete record with
empty primary key, non-empty table name and one field. -/
theorem save_emptyPk_fails_primaryKeyNotSet_witness :
    rPkless.pk = [] ∧ rPkless.tableName ≠ "" ∧
    (Session.save dbOk rPkless).1 = Except.error QErr.primaryKeyNotSet :=
  ⟨rfl, by decide, save_emptyPk_fails_primaryKeyNotSet dbOk rPkless rfl (by decide)⟩

/-- C2, counterexample: in the delete scenario (table `t`, primary key
`["id"]`, single field `id = 5`) the single exec call's statement string is
not the claimed `DELETE FROM t WHERE id=? LIMIT 1`: the code back-quotes
the column and puts spaces around `=`. -/
theorem delete_claimed_statement_string_false :
    (Session.delete dbOk rDelete).2.1.map ExecCall.stmt
      ≠ ["DELETE FROM t WHERE id=? LIMIT 1"] := by
  decide

/-- C2, amended: in the delete scenario, `Delete` performs exactly one exec
call, whose statement string is exactly
`` DELETE FROM t WHERE `id` = ? LIMIT 1 `` (back-quoted column, spaces
around `=`) and whose positional argument list is exactly the canonical
text form `"5"` of the value 5, for every executor. -/
theorem delete_single_pk_exec_call (db : ExecDb) :
    (Session.delete db rDelete).2.1 =
      [{ stmt := "DELETE FROM t WHERE `id` = ? LIMIT 1", args := [some "5"] }] :=
  rfl

/-- C6: setting a text value and reading it back through `String` returns
the same text with no error, for every record, field name and text
value. -/
theorem set_string_roundtrip (r : Record) (f s : String) :
    (r.set f (.str s)).string f = .ok s := by
  unfold Record.string Record.set
  simp [GoValue.toCell, assocGet_assocSet_self]

/-- C7: setting an integer in the signed 64-bit range (including both
extremes) and reading it back through `Int64` returns the same integer
with no error: the value survives the round trip through its canonical
decimal text form. -/
theorem set_int64_roundtrip (r : Record) (f : String) (n : Int)
    (h1 : -(2 ^ 63) ≤ n) (h2 : n < 2 ^ 63) :
    (r.set f (.int n)).int64 f = .ok n := by
  unfold Record.int64 Record.set
  simp only [GoValue.toCell, assocGet_assocSet_self]
  rw [goParseInt64_goFormatInt n h1 h2]

/-- C7, witness: the round trip at the minimum signed 64-bit integer. -/
theorem set_int64_roundtrip_witness :
    -(2 ^ 63) ≤ (-9223372036854775808 : Int) ∧
    (-9223372036854775808 : Int) < 2 ^ 63 ∧
    ((⟨[], [], "", false⟩ : Record).set "f" (.int (-9223372036854775808))).int64 "f"
      = .ok (-9223372036854775808) :=
  ⟨by decide, by decide,
    set_int64_roundtrip ⟨[], [], "", false⟩ "f" (-9223372036854775808)
      (by decide) (by decide)⟩

/-- C9: a record's table name, declared primary key (and auto-increment
flag) are unchanged by any sequence of `Set` calls: `Set` writes only the
values mapping. -/
theorem set_preserves_metadata (r : Record) (sets : List (String × GoValue)) :
    (applySets r sets).tableName = r.tableName ∧
    (applySets r sets).pk = r.pk ∧
    (applySets r sets).autoIncrement = r.autoIncrement := by
  induction sets generalizing r with
  | nil => exact ⟨rfl, rfl, rfl⟩
  | cons p rest ih => simpa [applySets, Record.set] using ih (r.set p.1 p.2)

/-- C10: `Save` and `Delete` return the passed record unchanged on every
path (success or any error), while `Create` does write to the record (the
auto-increment identifier capture), shown on a concrete run. -/
theorem save_delete_no_record_mutation :
    (∀ (db : ExecDb) (r : Record),
        (Session.save db r).2.2 = r ∧ (Session.delete db r).2.2 = r)
    ∧ (Session.create dbWithId rCreate).2.2 ≠ rCreate := by
  refine ⟨fun db r => ⟨?_, ?_⟩, by decide⟩
  · unfold Session.save
    split
    · rfl
    · split
      · rfl
      · rfl
  · unfold Session.delete
    split
    · rfl
    · split
      · rfl
      · rfl

/-- C3: for every record passing the `Save` preconditions (non-empty table
name, non-empty primary key, every primary-key field present), `Save`
performs exactly one exec call whose statement is
`` UPDATE <table> SET `f` = ? [, ...] WHERE `pk1` = ? [AND ...] LIMIT 1 ``:
the SET clause covers every field currently on the record (primary-key
fields included), the WHERE clause covers exactly the declared primary-key
fields in their declared order, and the statement ends with `LIMIT 1`. -/
theorem save_update_statement_form (db : ExecDb) (r : Record)
    (htable : r.tableName ≠ "") (hpk : r.pk ≠ [])
    (hpresent : ∀ f ∈ r.pk, assocGet r.values f ≠ none) :
    (Session.save db r).2.1.map ExecCall.stmt =
      ["UPDATE " ++ r.tableName ++ " SET "
        ++ String.intercalate ", " (r.fields.map (fun f => "`" ++ f ++ "` = ?"))
        ++ " WHERE "
        ++ String.intercalate " AND " (r.pk.map (fun f => "`" ++ f ++ "` = ?"))
        ++ " LIMIT 1"] := by
  obtain ⟨cells, hcells⟩ := collectPkValues_ok_of_present r.values r.pk hpresent
  have hv : validateRecordForUpdateOrDelete r = none := by
    simp [validateRecordForUpdateOrDelete, htable, hpk]
  simp [Session.save, hv, hcells, updateQuery, Record.fields, List.map_map,
    Function.comp]
  rfl

/-- C3, witness: the statement form on the concrete record with table `t`,
primary key `["id"]` and single field `id = 5`. -/
theorem save_update_statement_form_witness :
    rDelete.tableName ≠ "" ∧ rDelete.pk ≠ [] ∧
    (∀ f ∈ rDelete.pk, assocGet rDelete.values f ≠ none) ∧
    (Session.save dbOk rDelete).2.1.map ExecCall.stmt =
      ["UPDATE " ++ rDelete.tableName ++ " SET "
        ++ String.intercalate ", " (rDelete.fields.map (fun f => "`" ++ f ++ "` = ?"))
        ++ " WHERE "
        ++ String.intercalate " AND " (rDelete.pk.map (fun f => "`" ++ f ++ "` = ?"))
        ++ " LIMIT 1"] :=
  ⟨by decide, by decide, by decide,
    save_update_statement_form dbOk rDelete (by decide) (by decide) (by decide)⟩

/-- C4: when `Create` succeeds, a single-field primary key with the
auto-increment flag set gets the executor-reported generated identifier
written back into that field (and is left unchanged when the executor
cannot report one), while a composite primary key of two or more fields
gets no write-back even with auto-increment set. -/
theorem create_autoIncrement_writeback (db : ExecDb) (r : Record)
    (hok : (Session.create db r).1 = .ok ()) :
    (∀ p, r.pk = [p] → r.autoIncrement = true →
        (Session.create db r).2.2 =
          match (db (insertQuery r) (r.values.map Prod.snd)).lastInsertId with
          | some id => r.set p (.int id)
          | none => r)
    ∧ (2 ≤ r.pk.length → (Session.create db r).2.2 = r) := by
  by_cases htable : r.tableName = ""
  · simp [Session.create, htable] at hok
  · cases hres : (db (insertQuery r) (r.values.map Prod.snd)).execErr with
    | some m => simp [Session.create, htable, hres] at hok
    | none =>
      constructor
      · intro p hpkEq hauto
        cases hid : (db (insertQuery r) (r.values.map Prod.snd)).lastInsertId with
        | some id => simp [Session.create, htable, hres, hpkEq, hauto, hid]
        | none => simp [Session.create, htable, hres, hpkEq, hauto, hid]
      · intro hlen
        match hpkEq : r.pk with
        | [] => rw [hpkEq] at hlen; simp at hlen
        | [a] => rw [hpkEq] at hlen; simp at hlen
        | a :: b :: rest =>
          cases hauto : r.autoIncrement with
          | true => simp [Session.create, htable, hres, hpkEq, hauto]
          | false => simp [Session.create, htable, hres, hpkEq, hauto]

/-- C4, witness: a concrete successful create with auto-increment, single
primary key `["id"]` and an executor reporting generated identifier 7:
the identifier is written back into the `id` field. -/
theorem create_autoIncrement_writeback_witness :
    (Session.create dbWithId rCreate).1 = .ok () ∧
    (Session.create dbWithId rCreate).2.2 = rCreate.set "id" (.int 7) := by
  refine ⟨by decide, ?_⟩
  have h := (create_autoIncrement_writeback dbWithId rCreate (by decide)).1 "id" rfl rfl
  rw [h]
  decide

/-- C5: for every successful `Select` and every record it returns, the
field names present on the record are exactly the column names of the
query's result projection (as sets: membership equivalence). -/
theorem select_fields_eq_columns (db : QueryDb) (q : String)
    (opts : List SessionOption) (cols : List String)
    (rows : List (List GoValue)) (recs : List Record)
    (hdb : db q (buildCtx opts).args = .ok (cols, rows))
    (hlen : ∀ row ∈ rows, row.length = cols.length)
    (hsel : Session.select db q opts = .ok recs)
    (rec : Record) (hrec : rec ∈ recs) (f : String) :
    f ∈ rec.fields ↔ f ∈ cols := by
  simp only [Session.select, hdb, Except.ok.injEq] at hsel
  rw [← hsel] at hrec
  obtain ⟨row, hrow, rfl⟩ := List.mem_map.mp hrec
  rw [mem_fields_foldl_set]
  have hfst : (cols.zip row).map Prod.fst = cols :=
    List.map_fst_zip _ _ (le_of_eq (hlen row hrow).symm)
  rw [hfst]
  simp [NewRecord, Record.fields]

/-- C5, witness: the select scenario with columns `id`, `name` and one
row; membership of `id` in the returned record's fields matches its
membership in the projection. -/
theorem select_fields_eq_columns_witness :
    dbQW "q" (buildCtx []).args = .ok (["id", "name"], [[.int 1, .str "x"]]) ∧
    (∀ row ∈ [[GoValue.int 1, GoValue.str "x"]],
        row.length = (["id", "name"] : List String).length) ∧
    Session.select dbQW "q" [] = .ok [recW] ∧
    recW ∈ [recW] ∧
    ("id" ∈ recW.fields ↔ "id" ∈ (["id", "name"] : List String)) :=
  ⟨rfl, by decide, rfl, by simp,
    select_fields_eq_columns dbQW "q" [] ["id", "name"] [[.int 1, .str "x"]] [recW]
      rfl (by decide) rfl recW (by simp) "id"⟩

/-- C8: for every record with non-empty table name and a declared composite
primary key (two or more fields) of which at least one has no value on the
record, both `Save` and `Delete` fail with `PrimaryKeyInvalid` and perform
no exec call, leaving the record unchanged. -/
theorem save_delete_missing_pk_primaryKeyInvalid (db : ExecDb) (r : Record)
    (htable : r.tableName ≠ "") (hcomp : 2 ≤ r.pk.length)
    (hmiss : ∃ f ∈ r.pk, assocGet r.values f = none) :
    Session.save db r = (.error .primaryKeyInvalid, [], r) ∧
    Session.delete db r = (.error .primaryKeyInvalid, [], r) := by
  have hpk : r.pk ≠ [] := by
    intro h
    rw [h] at hcomp
    simp at hcomp
  have hv : validateRecordForUpdateOrDelete r = none := by
    simp [validateRecordForUpdateOrDelete, htable, hpk]
  have hc := collectPkValues_error_of_missing r.values r.pk hmiss
  exact ⟨by simp [Session.save, hv, hc], by simp [Session.delete, hv, hc]⟩

/-- C8, witness: the composite-key record missing its `tenant` value fails
both `Save` and `Delete` with `PrimaryKeyInvalid` and no exec call. -/
theorem save_delete_missing_pk_primaryKeyInvalid_witness :
    rComposite.tableName ≠ "" ∧ 2 ≤ rComposite.pk.length ∧
    (∃ f ∈ rComposite.pk, assocGet rComposite.values f = none) ∧
    (Session.save dbOk rComposite = (.error .primaryKeyInvalid, [], rComposite) ∧
     Session.delete dbOk rComposite = (.error .primaryKeyInvalid, [], rComposite)) :=
  ⟨by decide, by decide, ⟨"tenant", by decide, rfl⟩,
    save_delete_missing_pk_primaryKeyInvalid dbOk rComposite (by decide) (by decide)
      ⟨"tenant", by decide, rfl⟩⟩

end Quicksql
